import Mathlib

/-!
# one-compiler: the App component of `src/App.jsx`

A shallow embedding of the event handlers of the `App` component
(`handleRun`, `highlightError`, `handleSave`, `handleLoadSnippet`,
`handleClearSaved`, `handleLanguageChange`) as functions on an explicit
state that holds the React state variables, the `savedCodes` slot of
`localStorage` and the mounted Monaco editor.

JavaScript strings are modelled by Lean strings. The regular expression
of `highlightError` only tests ASCII characters, so reading a string as a
list of Unicode characters rather than of UTF-16 code units does not
change what it matches.
-/

namespace OneCompiler

/-! ## Numbers -/

/-- The values of the JavaScript Number type that `parseInt` can return on
a string of decimal digits: a non-negative integer that is exactly a
double, positive infinity, or NaN. -/
inductive JSNumber where
  | finite (n : Nat)
  | infinity
  | nan
  deriving DecidableEq, Repr

/-- Number of binary digits of `n`, by repeated halving with `fuel`
bounding the number of halvings. -/
def bitLengthAux : Nat → Nat → Nat
  | 0, _ => 0
  | fuel + 1, n => if n = 0 then 0 else bitLengthAux fuel (n / 2) + 1

/-- Number of binary digits of `n` (`0` for `0`). -/
def bitLength (n : Nat) : Nat := bitLengthAux n n

/-- The Number value of a non-negative mathematical integer: the nearest
IEEE 754 double, ties to the even significand, and infinity when the
rounded value needs more than 1024 binary digits (it is `2 ^ 1024` or
more). Integers below `2 ^ 53` are doubles themselves. ECMAScript lets an
implementation read the digits past the twentieth as zeros; the engines in
use round the whole run correctly, as this definition does. -/
def toDouble (n : Nat) : JSNumber :=
  if n < 2 ^ 53 then JSNumber.finite n
  else
    let e := bitLength n - 53
    let q := n / 2 ^ e
    let r := n % 2 ^ e
    let half := 2 ^ (e - 1)
    let q1 := if half < r ∨ (r = half ∧ q % 2 = 1) then q + 1 else q
    let v := q1 * 2 ^ e
    if 1024 < bitLength v then JSNumber.infinity else JSNumber.finite v

/-- Value of one decimal digit character. -/
def digitValue (c : Char) : Nat := c.toNat - 48

/-- The mathematical integer a run of decimal digits denotes in radix 10,
read left to right as `parseInt` does. -/
def mathInt (ds : List Char) : Nat :=
  ds.foldl (fun acc c => acc * 10 + digitValue c) 0

/-- The call `parseInt(s)` for the strings `highlightError` passes to it. The
argument is always the capture of `\d+`, so the whitespace, sign and
radix-prefix branches of `parseInt` are never entered: the longest prefix
of decimal digits is read in radix 10 and converted to a Number, and an
empty prefix gives NaN. -/
def parseInt (s : List Char) : JSNumber :=
  let ds := s.takeWhile Char.isDigit
  if ds.isEmpty then JSNumber.nan else toDouble (mathInt ds)

/-! ## The regular expression `/line (\d+)/i` -/

/-- One literal letter of the pattern under the `i` flag: without the `u`
flag a character of the pattern matches itself and its other ASCII case,
and no character outside ASCII. -/
def matchesLetter (lower upper c : Char) : Bool := c == lower || c == upper

/-- Attempt to match `/line (\d+)/i` starting at the head of the input:
the five characters of `line ` (letters in either case, then one space),
then the greedy, non-empty run of digits, which is the capture group. -/
def matchAt : List Char → Option (List Char)
  | c1 :: c2 :: c3 :: c4 :: c5 :: rest =>
    if matchesLetter 'l' 'L' c1 && matchesLetter 'i' 'I' c2 &&
        matchesLetter 'n' 'N' c3 && matchesLetter 'e' 'E' c4 && c5 == ' ' then
      let ds := rest.takeWhile Char.isDigit
      if ds.isEmpty then none else some ds
    else none
  | _ => none

/-- The call `errorText.match(/line (\d+)/i)`: the capture group of the leftmost
match, or `none` when the pattern matches nowhere (`null`). -/
def regexMatch : List Char → Option (List Char)
  | [] => none
  | c :: cs =>
    match matchAt (c :: cs) with
    | some ds => some ds
    | none => regexMatch cs

/-! ## The editor surface -/

/-- The `range` of a decoration passed to `deltaDecorations`. -/
structure DecorationRange where
  startLineNumber : JSNumber
  endLineNumber : JSNumber
  startColumn : Nat
  endColumn : Nat
  deriving DecidableEq, Repr

/-- The `options` of a decoration passed to `deltaDecorations`. -/
structure DecorationOptions where
  isWholeLine : Bool
  className : String
  inlineClassName : String
  deriving DecidableEq, Repr

/-- A decoration as `highlightError` describes it. -/
structure Decoration where
  range : DecorationRange
  options : DecorationOptions
  deriving DecidableEq, Repr

/-- The mounted Monaco editor, as far as the handlers drive it: the
decorations it currently holds, each under the identifier the editor gave
it, the next fresh identifier, and the lines `revealLineInCenter` was
called with, oldest first. -/
structure Editor where
  decorations : List (Nat × Decoration)
  nextId : Nat
  revealed : List JSNumber
  deriving DecidableEq, Repr

/-- The call `editor.deltaDecorations(oldDecorations, newDecorations)` of the Monaco
editor API: removes the decorations whose identifiers are listed in
`oldDecorations`, adds `newDecorations` under fresh identifiers, and
returns these identifiers. -/
def Editor.deltaDecorations (ed : Editor) (oldDecorations : List Nat)
    (newDecorations : List Decoration) : Editor × List Nat :=
  let kept := ed.decorations.filter (fun d => !oldDecorations.contains d.1)
  let ids := List.range' ed.nextId newDecorations.length
  ({ ed with decorations := kept ++ ids.zip newDecorations,
             nextId := ed.nextId + newDecorations.length }, ids)

/-- The call `editor.revealLineInCenter(lineNumber)`: the line is added to
the record of revealed lines. -/
def Editor.revealLineInCenter (ed : Editor) (lineNumber : JSNumber) : Editor :=
  { ed with revealed := ed.revealed ++ [lineNumber] }

/-- The decoration literal built in `highlightError` for `lineNumber`. -/
def errorDecoration (lineNumber : JSNumber) : Decoration :=
  { range := { startLineNumber := lineNumber, endLineNumber := lineNumber,
               startColumn := 1, endColumn := 1 },
    options := { isWholeLine := true, className := "errorHighlight",
                 inlineClassName := "errorInline" } }

/-- The function `highlightError(errorText)`, on the `editor` state variable (`none`
before the editor has mounted). Returns the editor afterwards. -/
def highlightError (editor : Option Editor) (errorText : String) : Option Editor :=
  match editor with
  | none => none
  | some ed =>
    match regexMatch errorText.data with
    | some m =>
      let lineNumber := parseInt m
      let ed1 := ed.revealLineInCenter lineNumber
      some (ed1.deltaDecorations [] [errorDecoration lineNumber]).1
    | none => some ed

/-! ## Language profiles -/

/-- An entry of the `languages` table. -/
structure Language where
  id : Nat
  name : String
  ext : String
  sample : String
  deriving DecidableEq, Repr

/-- Entry `languages[0]`. -/
def javascript : Language :=
  { id := 63, name := "JavaScript", ext := "javascript",
    sample := "console.log(\"Hello, world!\");" }

/-- Entry `languages[1]`. -/
def python : Language :=
  { id := 71, name := "Python", ext := "python",
    sample := "def main():\n    print(\"Hello, world!\")\n\nif __name__ == \"__main__\":\n    main()" }

/-- Entry `languages[2]`. -/
def java : Language :=
  { id := 62, name := "Java", ext := "java",
    sample := "class Main \x7b\n    public static void main(String[] args) \x7b\n        System.out.println(\"Hello, world!\");\n    \x7d\n\x7d" }

/-- Entry `languages[3]`. -/
def c : Language :=
  { id := 50, name := "C", ext := "c",
    sample := "#include <stdio.h>\n\nint main() \x7b\n    printf(\"Hello, world!\\n\");\n    return 0;\n\x7d" }

/-- Entry `languages[4]`. -/
def cpp : Language :=
  { id := 54, name := "C++", ext := "cpp",
    sample := "#include <iostream>\nusing namespace std;\n\nint main() \x7b\n    cout << \"Hello, world!\\n\";\n    return 0;\n\x7d" }

/-- The module-level `languages` table. -/
def languages : List Language := [javascript, python, java, c, cpp]

/-! ## Application state -/

/-- A saved snippet, `{ name, code, language }`. -/
structure Snippet where
  name : String
  code : String
  language : Language
  deriving DecidableEq, Repr

/-- The `data` of a response of the execution service: three optional
string fields (`none` for an absent or `null` field). -/
structure ExecResult where
  stdout : Option String
  stderr : Option String
  compile_output : Option String
  deriving DecidableEq, Repr

/-- How the awaited `axios.post` settles: it resolves with the response
data, or it rejects. -/
inductive Transport where
  | response (data : ExecResult)
  | failure
  deriving DecidableEq, Repr

/-- What `localStorage.setItem` does with a value: it stores it, or it
throws because the value does not fit the quota of the store. -/
inductive StoreWrite where
  | accepted
  | refused
  deriving DecidableEq, Repr

/-- The state the handlers of `App` read and write: the React state
variables, the `savedCodes` slot of `localStorage` and two records of
effects that leave the component.

`localStorage` is `none` when the key is absent and otherwise holds the
sequence that `JSON.parse` reads back from the stored string; storing is
`JSON.stringify`, which `JSON.parse` inverts on snippets. `formatTimers`
counts the `setTimeout` calls
that request a format pass, and `highlightCalls` lists the arguments
`highlightError` was called with, oldest first. -/
structure AppState where
  language : Language
  code : String
  input : String
  output : String
  loading : Bool
  savedCodes : List Snippet
  openDialog : Bool
  showSavedAlert : Bool
  editor : Option Editor
  localStorage : Option (List Snippet)
  formatTimers : Nat
  highlightCalls : List String
  deriving DecidableEq, Repr

/-- The state of the first render: the `useState` initial values over a
given content of the store, before the editor has mounted. -/
def initialState (stored : Option (List Snippet)) : AppState :=
  { language := python, code := python.sample, input := "", output := "",
    loading := false, savedCodes := [], openDialog := false,
    showSavedAlert := false, editor := none, localStorage := stored,
    formatTimers := 0, highlightCalls := [] }

/-- The mount effect: `JSON.parse(localStorage.getItem("savedCodes")) || []`
is put into `savedCodes`. -/
def loadSavedCodes (st : AppState) : AppState :=
  { st with savedCodes := st.localStorage.getD [] }

/-- The `onMount` callback of the editor: the instance is kept in `editor`
and a format pass is requested. -/
def onMount (st : AppState) (editorInstance : Editor) : AppState :=
  { st with editor := some editorInstance, formatTimers := st.formatTimers + 1 }

/-- JavaScript truthiness of an optional string field: the string when the
field is present and not the empty string. -/
def truthy : Option String → Option String
  | some s => if s = "" then none else some s
  | none => none

/-- The output shown when the transport call fails. -/
def errorSentinel : String := "⚠️ Error executing code."

/-- The statements of `handleRun` before the `try`: the busy flag is set,
the output is emptied, and a mounted editor receives
`deltaDecorations([], [])`. -/
def handleRunStart (st : AppState) : AppState :=
  { st with loading := true, output := "",
            editor := st.editor.map (fun ed => (ed.deltaDecorations [] []).1) }

/-- A call `highlightError(errorText)` as a step of the state: the editor
is what `highlightError` leaves, and the call is recorded. -/
def callHighlightError (st : AppState) (errorText : String) : AppState :=
  { st with editor := highlightError st.editor errorText,
            highlightCalls := st.highlightCalls ++ [errorText] }

/-- The `try` block of `handleRun` after the call has resolved with
`result`. -/
def handleRunTry (st : AppState) (result : ExecResult) : AppState :=
  match truthy result.stdout with
  | some out => { st with output := out }
  | none =>
    match truthy result.stderr with
    | some err => callHighlightError { st with output := err } err
    | none =>
      match truthy result.compile_output with
      | some co => callHighlightError { st with output := co } co
      | none => { st with output := "No output" }

/-- The remainder of `handleRun` once the awaited call has settled: the
`try` block on a response, the `catch` block on a failure, and the
`finally` block in both cases. -/
def handleRunSettle (st : AppState) (t : Transport) : AppState :=
  let st1 :=
    match t with
    | Transport.response result => handleRunTry st result
    | Transport.failure => { st with output := errorSentinel }
  { st1 with loading := false }

/-- The two states one `handleRun` passes through: the state in which the
transport call is awaited, and the state when `handleRun` has completed. -/
structure RunTrace where
  awaiting : AppState
  completed : AppState
  deriving DecidableEq, Repr

/-- The function `handleRun` as it executes, with `t` the outcome of its
transport call: the statements before the `try` lead to the state in which
the call is awaited, and from that state the `try`, `catch` and `finally`
blocks lead to the state in which `handleRun` completes. -/
def handleRunTrace (st : AppState) (t : Transport) : RunTrace :=
  let st1 := handleRunStart st
  { awaiting := st1, completed := handleRunSettle st1 t }

/-- One complete `handleRun`, with `t` the outcome of its transport call:
the state it completes in. -/
def handleRun (st : AppState) (t : Transport) : AppState :=
  (handleRunTrace st t).completed

/-- The handler `handleSave`, with `promptResult` what `prompt` returned
(`none` when the dialog was cancelled) and `write` what `setItem` does.
`setSavedCodes(updated)` comes first; when `setItem` then throws, nothing
catches it and the handler ends there, before `setShowSavedAlert(true)`. -/
def handleSave (st : AppState) (promptResult : Option String) (write : StoreWrite) :
    AppState :=
  match truthy promptResult with
  | none => st
  | some name =>
    let newSnippet : Snippet := { name := name, code := st.code, language := st.language }
    let updated := st.savedCodes ++ [newSnippet]
    let st1 := { st with savedCodes := updated }
    match write with
    | StoreWrite.accepted => { st1 with localStorage := some updated, showSavedAlert := true }
    | StoreWrite.refused => st1

/-- The handler `handleLoadSnippet(snippet)`. -/
def handleLoadSnippet (st : AppState) (snippet : Snippet) : AppState :=
  { st with code := snippet.code, language := snippet.language, openDialog := false }

/-- The handler `handleClearSaved`: the slot is removed from the store and
`savedCodes` is set to the empty list. -/
def handleClearSaved (st : AppState) : AppState :=
  { st with localStorage := none, savedCodes := [] }

/-- The handler `handleLanguageChange(e)` with `value = e.target.value`. When no entry
of `languages` has this identifier, `selected` is `undefined` and reading
`selected.sample` throws: the result is `none`. -/
def handleLanguageChange (st : AppState) (value : Nat) : Option AppState :=
  match languages.find? (fun l => l.id == value) with
  | some selected =>
    some { st with language := selected, code := selected.sample,
                   formatTimers := if st.editor.isSome then st.formatTimers + 1
                                   else st.formatTimers }
  | none => none

/-- The `language` prop of the editor in the rendered view. -/
def editorMode (st : AppState) : String := st.language.ext

/-- The decorations the editor holds, without their identifiers (none
while no editor is mounted). -/
def heldDecorations (st : AppState) : List Decoration :=
  match st.editor with
  | some ed => ed.decorations.map Prod.snd
  | none => []

/-- The sequence of snippets the store holds: what the mount effect reads
back from the slot, the empty sequence when the key is absent. -/
def storedSequence (st : AppState) : List Snippet := st.localStorage.getD []

/-- An optional string field that is absent, `null` or the empty string. -/
def Blank (field : Option String) : Prop := field = none ∨ field = some ""

/-- The states the component can be in: the state after the mount effect of
the first render, over any content of the store, and every state an event
of the view leads to from there. The two halves of `handleRun` are separate
steps, since other events can be handled while the call is awaited, and the
editor, an object outside the component, may change by itself at any time.
With `refusals` false only the histories in which the store accepted every
write are counted; with `refusals` true a write may also be refused. -/
inductive Reachable (refusals : Bool) : AppState → Prop where
  | mounted (stored : Option (List Snippet)) :
      Reachable refusals (loadSavedCodes (initialState stored))
  | editorMounted {st : AppState} (ed : Editor) :
      Reachable refusals st → Reachable refusals (onMount st ed)
  | editorChanged {st : AppState} (editor : Option Editor) :
      Reachable refusals st → Reachable refusals { st with editor := editor }
  | codeChanged {st : AppState} (val : String) :
      Reachable refusals st → Reachable refusals { st with code := val }
  | inputChanged {st : AppState} (val : String) :
      Reachable refusals st → Reachable refusals { st with input := val }
  | dialogSet {st : AppState} (b : Bool) :
      Reachable refusals st → Reachable refusals { st with openDialog := b }
  | alertClosed {st : AppState} :
      Reachable refusals st → Reachable refusals { st with showSavedAlert := false }
  | runStarted {st : AppState} :
      Reachable refusals st → Reachable refusals (handleRunStart st)
  | runSettled {st : AppState} (t : Transport) :
      Reachable refusals st → Reachable refusals (handleRunSettle st t)
  | saved {st : AppState} (promptResult : Option String) (write : StoreWrite) :
      Reachable refusals st → (write = StoreWrite.refused → refusals = true) →
      Reachable refusals (handleSave st promptResult write)
  | loaded {st : AppState} (snippet : Snippet) :
      Reachable refusals st → snippet ∈ st.savedCodes → Reachable refusals (handleLoadSnippet st snippet)
  | cleared {st : AppState} :
      Reachable refusals st → Reachable refusals (handleClearSaved st)
  | languageChanged {st st1 : AppState} (value : Nat) :
      Reachable refusals st → handleLanguageChange st value = some st1 → Reachable refusals st1

/-- An editor that has just mounted: no decoration, no line revealed. -/
def freshEditor : Editor := { decorations := [], nextId := 0, revealed := [] }

/-- The state once the first render has run its mount effect over an empty
store and the editor has mounted. -/
def readyState : AppState := onMount (loadSavedCodes (initialState none)) freshEditor

/-! ## Vocabulary of the specification -/

/-- The word `w` is the literal `line ` up to the case of its letters. -/
def IsLineLiteral (w : List Char) : Prop :=
  w.map Char.toLower = ['l', 'i', 'n', 'e', ' ']

/-- At index `i` of the text `t` starts an occurrence of the literal `line `,
in any case, that a decimal digit follows immediately. -/
def TokenAt (t : List Char) (i : Nat) : Prop :=
  ∃ w d rest, t.drop i = w ++ d :: rest ∧ IsLineLiteral w ∧ d.isDigit = true

/-- The decimal value of a run of digit characters: the digit at distance
`k` from the end of the run weighs `10 ^ k`. -/
def decimalValue (ds : List Char) : Nat :=
  Nat.ofDigits 10 ((ds.map digitValue).reverse)

/-! ## Basic facts -/

theorem deltaDecorations_nil_nil (ed : Editor) :
    (ed.deltaDecorations [] []).1 = ed := by
  cases ed
  simp [Editor.deltaDecorations]

theorem handleRunStart_editor (st : AppState) :
    (handleRunStart st).editor = st.editor := by
  cases h : st.editor <;> simp [handleRunStart, h, deltaDecorations_nil_nil]

theorem truthy_some {s : String} (h : s ≠ "") : truthy (some s) = some s := by
  simp [truthy, h]

theorem truthy_of_blank {field : Option String} (h : Blank field) :
    truthy field = none := by
  rcases h with h | h <;> simp [truthy, h]

theorem callHighlightError_savedCodes (st : AppState) (t : String) :
    (callHighlightError st t).savedCodes = st.savedCodes ∧
      (callHighlightError st t).localStorage = st.localStorage := by
  simp [callHighlightError]

theorem handleRunTry_savedCodes (st : AppState) (r : ExecResult) :
    (handleRunTry st r).savedCodes = st.savedCodes ∧
      (handleRunTry st r).localStorage = st.localStorage := by
  unfold handleRunTry
  split
  · simp
  · split
    · simp [callHighlightError]
    · split <;> simp [callHighlightError]

/-- The in-memory list agrees with the store in every state reached while
the store has accepted every write. -/
theorem reachable_cache_consistent {st : AppState} (h : Reachable false st) :
    st.savedCodes = storedSequence st := by
  induction h with
  | mounted stored => simp [loadSavedCodes, initialState, storedSequence]
  | editorMounted ed _ ih => simpa [onMount, storedSequence] using ih
  | editorChanged editor _ ih => simpa [storedSequence] using ih
  | codeChanged val _ ih => simpa [storedSequence] using ih
  | inputChanged val _ ih => simpa [storedSequence] using ih
  | dialogSet b _ ih => simpa [storedSequence] using ih
  | alertClosed _ ih => simpa [storedSequence] using ih
  | runStarted _ ih => simpa [handleRunStart, storedSequence] using ih
  | @runSettled st0 t _ ih =>
    cases t with
    | response r =>
      have h := handleRunTry_savedCodes st0 r
      show (handleRunTry st0 r).savedCodes = (handleRunTry st0 r).localStorage.getD []
      rw [h.1, h.2]
      exact ih
    | failure => simpa [handleRunSettle, storedSequence] using ih
  | saved p write _ hw ih =>
    cases write with
    | accepted =>
      unfold handleSave
      split
      · exact ih
      · simp [storedSequence]
    | refused => exact absurd (hw rfl) (by decide)
  | loaded snippet _ _ ih => simpa [handleLoadSnippet, storedSequence] using ih
  | cleared _ _ => simp [handleClearSaved, storedSequence]
  | languageChanged value _ hv ih =>
    unfold handleLanguageChange at hv
    split at hv
    · cases hv
      simpa [storedSequence] using ih
    · cases hv

/-! ## The regular expression and the line number -/

theorem toLower_eq_cases (c t u : Char)
    (hrange : ∀ n, 65 ≤ n → n ≤ 90 → Char.ofNat (n + 32) = t → Char.ofNat n = u) :
    c.toLower = t → (c = t ∨ c = u) := by
  intro h
  have hc := Char.ofNat_toNat c
  simp only [Char.toLower] at h
  by_cases hr : c.toNat ≥ 65 ∧ c.toNat ≤ 90
  · rw [if_pos hr] at h
    right
    rw [← hc]
    exact hrange _ hr.1 hr.2 h
  · rw [if_neg hr] at h
    left; exact h

theorem matchesLetter_l (c : Char) : c.toLower = 'l' ↔ matchesLetter 'l' 'L' c = true := by
  simp only [matchesLetter, Bool.or_eq_true, beq_iff_eq]
  constructor
  · apply toLower_eq_cases
    intro n h1 h2
    interval_cases n <;> decide
  · rintro (h | h) <;> subst h <;> decide

theorem matchesLetter_i (c : Char) : c.toLower = 'i' ↔ matchesLetter 'i' 'I' c = true := by
  simp only [matchesLetter, Bool.or_eq_true, beq_iff_eq]
  constructor
  · apply toLower_eq_cases
    intro n h1 h2
    interval_cases n <;> decide
  · rintro (h | h) <;> subst h <;> decide

theorem matchesLetter_n (c : Char) : c.toLower = 'n' ↔ matchesLetter 'n' 'N' c = true := by
  simp only [matchesLetter, Bool.or_eq_true, beq_iff_eq]
  constructor
  · apply toLower_eq_cases
    intro n h1 h2
    interval_cases n <;> decide
  · rintro (h | h) <;> subst h <;> decide

theorem matchesLetter_e (c : Char) : c.toLower = 'e' ↔ matchesLetter 'e' 'E' c = true := by
  simp only [matchesLetter, Bool.or_eq_true, beq_iff_eq]
  constructor
  · apply toLower_eq_cases
    intro n h1 h2
    interval_cases n <;> decide
  · rintro (h | h) <;> subst h <;> decide

theorem toLower_eq_space (c : Char) : c.toLower = ' ' ↔ c = ' ' := by
  constructor
  · intro h
    have := toLower_eq_cases c ' ' ' ' (by intro n h1 h2; interval_cases n <;> decide) h
    simpa using this
  · intro h; subst h; decide

/-- The literal test of `matchAt`, letter by letter, is the comparison up to
case with `line `. -/
theorem isLineLiteral_iff (w : List Char) :
    IsLineLiteral w ↔ ∃ c1 c2 c3 c4 c5, w = [c1, c2, c3, c4, c5] ∧
      (matchesLetter 'l' 'L' c1 && matchesLetter 'i' 'I' c2 &&
        matchesLetter 'n' 'N' c3 && matchesLetter 'e' 'E' c4 && c5 == ' ') = true := by
  unfold IsLineLiteral
  constructor
  · intro h
    have hlen : w.length = 5 := by
      have := congrArg List.length h
      simpa using this
    rcases w with _ | ⟨c1, _ | ⟨c2, _ | ⟨c3, _ | ⟨c4, _ | ⟨c5, _ | ⟨c6, r⟩⟩⟩⟩⟩⟩ <;>
      simp at hlen
    · simp only [List.map_cons, List.map_nil, List.cons.injEq, and_true] at h
      refine ⟨c1, c2, c3, c4, c5, rfl, ?_⟩
      simp only [Bool.and_eq_true, beq_iff_eq]
      exact ⟨⟨⟨⟨(matchesLetter_l _).1 h.1, (matchesLetter_i _).1 h.2.1⟩,
        (matchesLetter_n _).1 h.2.2.1⟩, (matchesLetter_e _).1 h.2.2.2.1⟩,
        (toLower_eq_space _).1 h.2.2.2.2⟩
  · rintro ⟨c1, c2, c3, c4, c5, rfl, h⟩
    simp only [Bool.and_eq_true, beq_iff_eq] at h
    obtain ⟨⟨⟨⟨h1, h2⟩, h3⟩, h4⟩, h5⟩ := h
    simp only [List.map_cons, List.map_nil, List.cons.injEq, and_true]
    exact ⟨(matchesLetter_l _).2 h1, (matchesLetter_i _).2 h2, (matchesLetter_n _).2 h3,
      (matchesLetter_e _).2 h4, (toLower_eq_space _).2 h5⟩

/-- After the literal, `matchAt` captures the greedy run of digits. -/
theorem matchAt_literal (w rest : List Char) (hw : IsLineLiteral w) :
    matchAt (w ++ rest) =
      if (rest.takeWhile Char.isDigit).isEmpty then none
      else some (rest.takeWhile Char.isDigit) := by
  obtain ⟨c1, c2, c3, c4, c5, rfl, h⟩ := (isLineLiteral_iff w).1 hw
  simp only [List.cons_append, List.nil_append, matchAt, h, if_true]

/-- A match of `matchAt` starts with the literal and captures the greedy,
non-empty run of digits after it. -/
theorem matchAt_some (t m : List Char) (h : matchAt t = some m) :
    ∃ w rest, t = w ++ rest ∧ IsLineLiteral w ∧
      m = rest.takeWhile Char.isDigit ∧ m ≠ [] := by
  unfold matchAt at h
  split at h
  · rename_i c1 c2 c3 c4 c5 rest
    split at h
    · rename_i hlit
      refine ⟨[c1, c2, c3, c4, c5], rest, rfl, (isLineLiteral_iff _).2 ⟨_, _, _, _, _, rfl, hlit⟩, ?_⟩
      by_cases he : (List.takeWhile Char.isDigit rest).isEmpty = true
      · simp [he] at h
      · simp only [he] at h
        simp only [Bool.false_eq_true, if_false, Option.some.injEq] at h
        subst h
        refine ⟨rfl, ?_⟩
        intro hnil
        rw [hnil] at he
        simp at he
    · cases h
  · cases h

theorem tokenAt_zero_of_matchAt (t m : List Char) (h : matchAt t = some m) :
    TokenAt t 0 := by
  obtain ⟨w, rest, rfl, hw, hm, hne⟩ := matchAt_some t m h
  cases rest with
  | nil => simp at hm; exact absurd hm hne
  | cons d rest1 =>
    refine ⟨w, d, rest1, by simp, hw, ?_⟩
    by_contra hd
    simp [List.takeWhile_cons, hd] at hm
    exact hne hm

theorem tokenAt_succ (c : Char) (cs : List Char) (i : Nat) :
    TokenAt (c :: cs) (i + 1) ↔ TokenAt cs i := by
  simp [TokenAt]

/-- Without an occurrence of the token the regular expression does not match. -/
theorem regexMatch_none (t : List Char) (h : ∀ i, ¬ TokenAt t i) :
    regexMatch t = none := by
  induction t with
  | nil => rfl
  | cons c cs ih =>
    have h0 : matchAt (c :: cs) = none := by
      cases hm : matchAt (c :: cs) with
      | none => rfl
      | some m => exact absurd (tokenAt_zero_of_matchAt _ _ hm) (h 0)
    simp only [regexMatch, h0]
    exact ih (fun i hi => h (i + 1) ((tokenAt_succ c cs i).2 hi))

/-- The search skips a beginning of the text in which no token starts. -/
theorem regexMatch_skip (pre s : List Char)
    (h : ∀ i, i < pre.length → ¬ TokenAt (pre ++ s) i) :
    regexMatch (pre ++ s) = regexMatch s := by
  induction pre with
  | nil => rfl
  | cons c cs ih =>
    have h0 : matchAt (c :: (cs ++ s)) = none := by
      cases hm : matchAt (c :: (cs ++ s)) with
      | none => rfl
      | some m => exact absurd (tokenAt_zero_of_matchAt _ _ hm) (h 0 (by simp))
    show regexMatch (c :: (cs ++ s)) = regexMatch s
    simp only [regexMatch, h0]
    apply ih
    intro i hi
    exact fun ht => h (i + 1) (by simpa using hi) ((tokenAt_succ c _ i).2 ht)

theorem regexMatch_of_matchAt (s m : List Char) (h : matchAt s = some m) :
    regexMatch s = some m := by
  cases s with
  | nil => simp [matchAt] at h
  | cons c cs => simp only [regexMatch, h]

theorem takeWhile_digit_run (ds post : List Char) (hds : ∀ c ∈ ds, c.isDigit = true)
    (hpost : ∀ c rest, post = c :: rest → c.isDigit = false) :
    (ds ++ post).takeWhile Char.isDigit = ds := by
  induction ds with
  | nil =>
    cases post with
    | nil => rfl
    | cons c rest => simp [List.takeWhile_cons, hpost c rest rfl]
  | cons d ds ih =>
    have hd := hds d (by simp)
    simp only [List.cons_append, List.takeWhile_cons, hd, if_true]
    rw [ih (fun c hc => hds c (by simp [hc]))]


/-- At index `i` a token starts exactly when `matchAt` succeeds there. -/
theorem tokenAt_iff_matchAt (t : List Char) (i : Nat) :
    TokenAt t i ↔ (matchAt (t.drop i)).isSome = true := by
  constructor
  · rintro ⟨w, d, rest, ht, hw, hd⟩
    rw [ht, matchAt_literal w (d :: rest) hw]
    simp [List.takeWhile_cons, hd]
  · intro h
    cases hm : matchAt (t.drop i) with
    | none => simp [hm] at h
    | some m =>
      obtain ⟨w, d, rest, ht, hw, hd⟩ := tokenAt_zero_of_matchAt _ _ hm
      exact ⟨w, d, rest, by simpa using ht, hw, hd⟩

/-- The regular expression matches as soon as a token occurs somewhere. -/
theorem regexMatch_isSome_of_token (t : List Char) (i : Nat) (h : TokenAt t i) :
    (regexMatch t).isSome = true := by
  induction t generalizing i with
  | nil =>
    have := (tokenAt_iff_matchAt [] i).1 h
    simp [matchAt] at this
  | cons c cs ih =>
    cases hm : matchAt (c :: cs) with
    | some m => simp [regexMatch, hm]
    | none =>
      simp only [regexMatch, hm]
      cases i with
      | zero =>
        have := (tokenAt_iff_matchAt (c :: cs) 0).1 h
        simp [hm] at this
      | succ j => exact ih j ((tokenAt_succ c cs j).1 h)

theorem no_token_of_regexMatch_none (t : List Char) (h : regexMatch t = none) :
    ∀ i, ¬ TokenAt t i := by
  intro i hi
  have := regexMatch_isSome_of_token t i hi
  simp [h] at this

theorem foldl_digits (ds : List Char) (acc : Nat) :
    ds.foldl (fun a c => a * 10 + digitValue c) acc =
      acc * 10 ^ ds.length + decimalValue ds := by
  induction ds generalizing acc with
  | nil => simp [decimalValue]
  | cons d ds ih =>
    rw [List.foldl_cons, ih]
    simp only [decimalValue, List.map_cons, List.reverse_cons, Nat.ofDigits_append,
      Nat.ofDigits_singleton, List.length_reverse, List.length_map, List.length_cons]
    ring

theorem mathInt_eq_decimalValue (ds : List Char) : mathInt ds = decimalValue ds := by
  simp [mathInt, foldl_digits]

theorem toDouble_of_le (n : Nat) (h : n ≤ 2 ^ 53) : toDouble n = JSNumber.finite n := by
  rcases Nat.lt_or_eq_of_le h with h1 | h1
  · unfold toDouble
    rw [if_pos h1]
  · subst h1
    decide

theorem parseInt_digit_run (ds : List Char) (hne : ds ≠ [])
    (hds : ∀ c ∈ ds, c.isDigit = true) :
    parseInt ds = toDouble (decimalValue ds) := by
  have h : ds.takeWhile Char.isDigit = ds := List.takeWhile_eq_self_iff.2 hds
  simp [parseInt, h, hne, mathInt_eq_decimalValue]

/-- What `highlightError` does to a mounted editor once the pattern has
matched with capture `m`. -/
theorem highlightError_of_match (ed : Editor) (text : String) (m : List Char)
    (h : regexMatch text.data = some m) :
    highlightError (some ed) text =
      some { decorations := ed.decorations ++ [(ed.nextId, errorDecoration (parseInt m))],
             nextId := ed.nextId + 1,
             revealed := ed.revealed ++ [parseInt m] } := by
  simp [highlightError, h, Editor.deltaDecorations, Editor.revealLineInCenter]

theorem highlightError_of_no_match (editor : Option Editor) (text : String)
    (h : regexMatch text.data = none) : highlightError editor text = editor := by
  cases editor <;> simp [highlightError, h]

/-! ## Output selection and the busy flag -/

/-- C1: on a successful transport response the output `handleRun` displays
is the first-match priority selection: `stdout` when it is present and
non-empty, whatever the other two fields hold; else `stderr` when present
and non-empty; else `compile_output` when present and non-empty; else the
literal "No output". -/
theorem handleRun_output_first_match (st : AppState) (r : ExecResult) :
    (∀ s, r.stdout = some s → s ≠ "" →
        (handleRun st (Transport.response r)).output = s) ∧
    (∀ s, Blank r.stdout → r.stderr = some s → s ≠ "" →
        (handleRun st (Transport.response r)).output = s) ∧
    (∀ s, Blank r.stdout → Blank r.stderr → r.compile_output = some s → s ≠ "" →
        (handleRun st (Transport.response r)).output = s) ∧
    (Blank r.stdout → Blank r.stderr → Blank r.compile_output →
        (handleRun st (Transport.response r)).output = "No output") := by
  refine ⟨?_, ?_, ?_, ?_⟩
  · intro s h1 hs
    simp [handleRun, handleRunTrace, handleRunSettle, handleRunTry, h1, truthy_some hs]
  · intro s h1 h2 hs
    simp [handleRun, handleRunTrace, handleRunSettle, handleRunTry, truthy_of_blank h1, h2,
      truthy_some hs, callHighlightError]
  · intro s h1 h2 h3 hs
    simp [handleRun, handleRunTrace, handleRunSettle, handleRunTry, truthy_of_blank h1,
      truthy_of_blank h2, h3, truthy_some hs, callHighlightError]
  · intro h1 h2 h3
    simp [handleRun, handleRunTrace, handleRunSettle, handleRunTry, truthy_of_blank h1,
      truthy_of_blank h2, truthy_of_blank h3]

theorem handleRun_output_first_match_witness :
    (handleRun readyState (Transport.response
        { stdout := some "42\n", stderr := some "warning at line 3",
          compile_output := none })).output = "42\n" :=
  (handleRun_output_first_match readyState
      { stdout := some "42\n", stderr := some "warning at line 3",
        compile_output := none }).1 "42\n" rfl (by decide)

/-- C2: when the transport call fails, the output after `handleRun` is
exactly the sentinel "⚠️ Error executing code.", the editor is as it was
before the run (no line revealed, no decoration added), `highlightError`
was not called, and the busy flag is false. -/
theorem handleRun_transport_failure (st : AppState) :
    (handleRun st Transport.failure).output = "⚠️ Error executing code." ∧
    (handleRun st Transport.failure).editor = st.editor ∧
    (handleRun st Transport.failure).highlightCalls = st.highlightCalls ∧
    (handleRun st Transport.failure).loading = false := by
  refine ⟨?_, ?_, ?_, ?_⟩
  · simp [handleRun, handleRunTrace, handleRunSettle, errorSentinel]
  · simpa [handleRun, handleRunTrace, handleRunSettle] using handleRunStart_editor st
  · simp [handleRun, handleRunTrace, handleRunSettle, handleRunStart]
  · simp [handleRun, handleRunTrace, handleRunSettle]

/-- C9: for every state and every outcome of the transport call (any
response, or a failure), in the state `handleRun` has reached when it
awaits the call the busy flag `loading` is true, and in the state in which
`handleRun` completes, which is the state `handleRun` leaves, the flag is
false. -/
theorem handleRun_busy_flag (st : AppState) (t : Transport) :
    (handleRunTrace st t).awaiting.loading = true ∧
    (handleRunTrace st t).completed.loading = false ∧
    handleRun st t = (handleRunTrace st t).completed ∧
    (handleRun st t).loading = false := by
  refine ⟨?_, ?_, rfl, ?_⟩
  · simp [handleRunTrace, handleRunStart]
  · simp [handleRunTrace, handleRunSettle]
  · simp [handleRun, handleRunTrace, handleRunSettle]

/-! ## Language switch -/

/-- C6: for each of the five entries `P` of `languages` and every prior
state, `handleLanguageChange` with the identifier of `P` succeeds, the
selected language is `P`, the editor mode is `P.ext` and the source text is
`P.sample`, whatever the source text was before. -/
theorem handleLanguageChange_selects (st : AppState) (P : Language)
    (hP : P ∈ languages) :
    languages.length = 5 ∧
    ∃ st1, handleLanguageChange st P.id = some st1 ∧
      st1.language = P ∧ editorMode st1 = P.ext ∧ st1.code = P.sample := by
  refine ⟨rfl, ?_⟩
  simp only [languages, List.mem_cons, List.mem_singleton, List.not_mem_nil,
    or_false] at hP
  rcases hP with h | h | h | h | h <;> subst h <;>
    exact ⟨_, rfl, rfl, rfl, rfl⟩

theorem handleLanguageChange_selects_witness :
    languages.length = 5 ∧
    ∃ st1, handleLanguageChange { readyState with code := "print(1)" } java.id = some st1 ∧
      st1.language = java ∧ editorMode st1 = java.ext ∧ st1.code = java.sample :=
  handleLanguageChange_selects { readyState with code := "print(1)" } java
    (by simp [languages])

/-! ## Snippets -/

/-- C8: `handleClearSaved` leaves the store without the slot, so that the
stored sequence is empty, leaves `savedCodes` empty, and applying it twice
gives the same state as applying it once. -/
theorem handleClearSaved_empties (st : AppState) :
    (handleClearSaved st).localStorage = none ∧
    storedSequence (handleClearSaved st) = [] ∧
    (handleClearSaved st).savedCodes = [] ∧
    handleClearSaved (handleClearSaved st) = handleClearSaved st := by
  simp [handleClearSaved, storedSequence]

/-- C7, amended for a store that can refuse a write: in every state in
which `savedCodes` equals the sequence `S` the store holds, `handleSave`
under a non-empty name, when the store accepts the write, leaves the store
holding `S` followed by the one snippet made of the name, the current
source text and the current language, and leaves `savedCodes` equal to the
stored sequence. -/
theorem handleSave_appends (st : AppState) (name : String) (hname : name ≠ "")
    (hcache : st.savedCodes = storedSequence st) :
    storedSequence (handleSave st (some name) StoreWrite.accepted) =
        storedSequence st ++ [{ name := name, code := st.code, language := st.language }] ∧
      (handleSave st (some name) StoreWrite.accepted).savedCodes =
        storedSequence (handleSave st (some name) StoreWrite.accepted) := by
  simp [handleSave, truthy, hname, storedSequence] at *
  exact hcache

theorem handleSave_appends_witness :
    storedSequence (handleSave (loadSavedCodes (initialState (some
        [{ name := "A", code := "1", language := c },
         { name := "B", code := "2", language := java }]))) (some "test1")
        StoreWrite.accepted) =
      [{ name := "A", code := "1", language := c },
       { name := "B", code := "2", language := java }] ++
        [{ name := "test1", code := python.sample, language := python }] ∧
    (handleSave (loadSavedCodes (initialState (some
        [{ name := "A", code := "1", language := c },
         { name := "B", code := "2", language := java }]))) (some "test1")
        StoreWrite.accepted).savedCodes =
      storedSequence (handleSave (loadSavedCodes (initialState (some
        [{ name := "A", code := "1", language := c },
         { name := "B", code := "2", language := java }]))) (some "test1")
        StoreWrite.accepted) :=
  handleSave_appends (loadSavedCodes (initialState (some
        [{ name := "A", code := "1", language := c },
         { name := "B", code := "2", language := java }]))) "test1" (by decide) rfl

/-- C7 as stated fails when the store refuses a write. After the mount
effect over a store holding `[A, B]`, a save as "test1" whose write is
refused leaves the store holding `[A, B]` while `savedCodes` holds
`[A, B, test1]`; a following save as "test2" whose write is accepted
leaves the store holding `[A, B, test1, test2]`, two snippets more than the
`[A, B]` it held before that save. -/
theorem handleSave_appends_counterexample :
    storedSequence (handleSave (loadSavedCodes (initialState (some
        [{ name := "A", code := "1", language := c },
         { name := "B", code := "2", language := java }]))) (some "test1")
        StoreWrite.refused) =
      [{ name := "A", code := "1", language := c },
       { name := "B", code := "2", language := java }] ∧
    (handleSave (loadSavedCodes (initialState (some
        [{ name := "A", code := "1", language := c },
         { name := "B", code := "2", language := java }]))) (some "test1")
        StoreWrite.refused).savedCodes =
      [{ name := "A", code := "1", language := c },
       { name := "B", code := "2", language := java },
       { name := "test1", code := python.sample, language := python }] ∧
    storedSequence (handleSave (handleSave (loadSavedCodes (initialState (some
        [{ name := "A", code := "1", language := c },
         { name := "B", code := "2", language := java }]))) (some "test1")
        StoreWrite.refused) (some "test2") StoreWrite.accepted) =
      [{ name := "A", code := "1", language := c },
       { name := "B", code := "2", language := java },
       { name := "test1", code := python.sample, language := python },
       { name := "test2", code := python.sample, language := python }] := by
  decide

/-! ## Error-line highlight -/

/-- C3, amended for the Number type: when the text reads `pre ++ w ++ ds ++ post`
with `w` the literal `line ` in any case, `ds` a non-empty run of decimal
digits that no digit follows, and no such token starting inside `pre`,
`highlightError` on a mounted editor takes as line number the Number
`parseInt` returns for `ds`, the double nearest to the decimal value of
`ds`, which is that value itself whenever it is at most `2 ^ 53`; it
reveals that line and adds exactly one decoration, a whole-line one whose
start and end line are that number, to those the editor holds. In
particular "Error at line 42: syntax error" gives line 42. -/
theorem highlightError_line_token (ed : Editor) (text : String)
    (pre w ds post : List Char)
    (htext : text.data = pre ++ w ++ ds ++ post)
    (hw : IsLineLiteral w) (hne : ds ≠ []) (hds : ∀ c ∈ ds, c.isDigit = true)
    (hmax : ∀ c rest, post = c :: rest → c.isDigit = false)
    (hfirst : ∀ i, i < pre.length → ¬ TokenAt text.data i) :
    highlightError (some ed) text =
        some { decorations :=
                 ed.decorations ++ [(ed.nextId, errorDecoration (toDouble (decimalValue ds)))],
               nextId := ed.nextId + 1,
               revealed := ed.revealed ++ [toDouble (decimalValue ds)] } ∧
      (decimalValue ds ≤ 2 ^ 53 →
        toDouble (decimalValue ds) = JSNumber.finite (decimalValue ds)) ∧
      (errorDecoration (toDouble (decimalValue ds))).range.startLineNumber =
        toDouble (decimalValue ds) ∧
      (errorDecoration (toDouble (decimalValue ds))).range.endLineNumber =
        toDouble (decimalValue ds) ∧
      (errorDecoration (toDouble (decimalValue ds))).options.isWholeLine = true ∧
      highlightError (some ed) "Error at line 42: syntax error" =
        some { decorations := ed.decorations ++ [(ed.nextId, errorDecoration (JSNumber.finite 42))],
               nextId := ed.nextId + 1,
               revealed := ed.revealed ++ [JSNumber.finite 42] } := by
  have hrun : (ds ++ post).takeWhile Char.isDigit = ds := takeWhile_digit_run ds post hds hmax
  have hat : matchAt (w ++ (ds ++ post)) = some ds := by
    rw [matchAt_literal w (ds ++ post) hw, hrun]
    cases ds with
    | nil => exact absurd rfl hne
    | cons d ds1 => simp
  have hm : regexMatch text.data = some ds := by
    have hskip := regexMatch_skip pre (w ++ (ds ++ post))
      (by simpa [htext, List.append_assoc] using hfirst)
    rw [htext, List.append_assoc, List.append_assoc, hskip]
    exact regexMatch_of_matchAt _ _ hat
  refine ⟨?_, toDouble_of_le _, rfl, rfl, rfl, ?_⟩
  · rw [highlightError_of_match ed text ds hm, parseInt_digit_run ds hne hds]
  · have h42 : regexMatch "Error at line 42: syntax error".data = some ['4', '2'] := by decide
    rw [highlightError_of_match ed _ _ h42]
    have hp : parseInt ['4', '2'] = JSNumber.finite 42 := by decide
    rw [hp]

theorem highlightError_line_token_witness :
    highlightError (some freshEditor) "main.c:3: LINE 17 col 2, line 99" =
        some { decorations :=
                 freshEditor.decorations ++
                   [(freshEditor.nextId, errorDecoration (toDouble (decimalValue ['1', '7'])))],
               nextId := freshEditor.nextId + 1,
               revealed := freshEditor.revealed ++ [toDouble (decimalValue ['1', '7'])] } ∧
      toDouble (decimalValue ['1', '7']) = JSNumber.finite 17 :=
  have h := highlightError_line_token freshEditor "main.c:3: LINE 17 col 2, line 99"
    "main.c:3: ".data "LINE ".data ['1', '7'] " col 2, line 99".data
    (by decide) (by unfold IsLineLiteral; decide) (by decide) (by decide)
    (by intro c rest h; cases h; decide)
    (by
      intro i hi ht
      have hs := (tokenAt_iff_matchAt _ i).1 ht
      have hi10 : i < 10 := hi
      interval_cases i <;> exact absurd hs (by decide))
  ⟨h.1, by decide⟩

/-- C3 as stated fails on a digit run above `2 ^ 53`: in
"line 9007199254740993" the token starts at index 0 and its digit run has
the decimal value 9007199254740993, yet the line revealed and decorated is
9007199254740992, the nearest double. -/
theorem highlightError_line_token_counterexample :
    TokenAt "line 9007199254740993".data 0 ∧
    decimalValue "9007199254740993".data = 9007199254740993 ∧
    highlightError (some freshEditor) "line 9007199254740993" =
      some { decorations := [(0, errorDecoration (JSNumber.finite 9007199254740992))],
             nextId := 1, revealed := [JSNumber.finite 9007199254740992] } := by
  refine ⟨?_, by decide, by decide⟩
  exact (tokenAt_iff_matchAt _ 0).2 (by decide)

/-- C4: when no index of the text starts the literal `line `, in any case,
followed by a decimal digit, `highlightError` leaves the editor as it is,
mounted or not, and a run whose selected channel (`stderr`, or
`compile_output` when `stderr` is blank) holds this text displays the text,
leaves the editor as it was before the run and ends with the busy flag
false: the `catch` block is not entered. -/
theorem highlightError_without_token (st : AppState) (text : String)
    (hno : ∀ i, ¬ TokenAt text.data i) :
    (∀ editor, highlightError editor text = editor) ∧
    (∀ r : ExecResult, Blank r.stdout → text ≠ "" →
      (r.stderr = some text ∨ (Blank r.stderr ∧ r.compile_output = some text)) →
      (handleRun st (Transport.response r)).output = text ∧
      (handleRun st (Transport.response r)).editor = st.editor ∧
      (handleRun st (Transport.response r)).loading = false) := by
  have hnone : regexMatch text.data = none := regexMatch_none _ hno
  refine ⟨fun editor => highlightError_of_no_match editor text hnone, ?_⟩
  intro r h1 hne h
  have hed := handleRunStart_editor st
  rcases h with h2 | ⟨h2, h3⟩
  · simp [handleRun, handleRunTrace, handleRunSettle, handleRunTry, truthy_of_blank h1, h2,
      truthy_some hne, callHighlightError, highlightError_of_no_match _ text hnone, hed]
  · simp [handleRun, handleRunTrace, handleRunSettle, handleRunTry, truthy_of_blank h1,
      truthy_of_blank h2, h3, truthy_some hne, callHighlightError,
      highlightError_of_no_match _ text hnone, hed]

theorem highlightError_without_token_witness :
    (∀ editor, highlightError editor "unexpected token" = editor) ∧
    (handleRun readyState (Transport.response
        { stdout := none, stderr := some "unexpected token",
          compile_output := none })).output = "unexpected token" :=
  have h := highlightError_without_token readyState "unexpected token"
    (no_token_of_regexMatch_none _ (by decide))
  ⟨h.1, (h.2 { stdout := none, stderr := some "unexpected token", compile_output := none }
    (Or.inl rfl) (by decide) (Or.inl rfl)).1⟩

/-- C10: on a successful response `handleRun` calls `highlightError` exactly
when the selected channel is `stderr` or `compile_output`, once, with the
very text it displays, and the editor is then what `highlightError` makes of
it for that text; when `stdout` is present and non-empty, or all three
fields are blank, `highlightError` is not called and the editor is
unchanged, whatever `stderr` and `compile_output` hold. -/
theorem handleRun_highlight_attempts (st : AppState) (r : ExecResult) :
    (∀ s, r.stdout = some s → s ≠ "" →
        (handleRun st (Transport.response r)).highlightCalls = st.highlightCalls ∧
        (handleRun st (Transport.response r)).editor = st.editor) ∧
    (∀ s, Blank r.stdout → r.stderr = some s → s ≠ "" →
        (handleRun st (Transport.response r)).highlightCalls = st.highlightCalls ++ [s] ∧
        (handleRun st (Transport.response r)).output = s ∧
        (handleRun st (Transport.response r)).editor = highlightError st.editor s) ∧
    (∀ s, Blank r.stdout → Blank r.stderr → r.compile_output = some s → s ≠ "" →
        (handleRun st (Transport.response r)).highlightCalls = st.highlightCalls ++ [s] ∧
        (handleRun st (Transport.response r)).output = s ∧
        (handleRun st (Transport.response r)).editor = highlightError st.editor s) ∧
    (Blank r.stdout → Blank r.stderr → Blank r.compile_output →
        (handleRun st (Transport.response r)).highlightCalls = st.highlightCalls ∧
        (handleRun st (Transport.response r)).editor = st.editor) := by
  have hed := handleRunStart_editor st
  have hcalls : (handleRunStart st).highlightCalls = st.highlightCalls := by
    simp [handleRunStart]
  refine ⟨?_, ?_, ?_, ?_⟩
  · intro s h1 hs
    simp [handleRun, handleRunTrace, handleRunSettle, handleRunTry, h1, truthy_some hs, hed, hcalls]
  · intro s h1 h2 hs
    simp [handleRun, handleRunTrace, handleRunSettle, handleRunTry, truthy_of_blank h1, h2,
      truthy_some hs, callHighlightError, hed, hcalls]
  · intro s h1 h2 h3 hs
    simp [handleRun, handleRunTrace, handleRunSettle, handleRunTry, truthy_of_blank h1,
      truthy_of_blank h2, h3, truthy_some hs, callHighlightError, hed, hcalls]
  · intro h1 h2 h3
    simp [handleRun, handleRunTrace, handleRunSettle, handleRunTry, truthy_of_blank h1,
      truthy_of_blank h2, truthy_of_blank h3, hed, hcalls]

theorem handleRun_highlight_attempts_witness :
    (handleRun readyState (Transport.response
        { stdout := some "ok", stderr := some "error at line 7",
          compile_output := some "line 9" })).highlightCalls = readyState.highlightCalls ∧
    (handleRun readyState (Transport.response
        { stdout := some "ok", stderr := some "error at line 7",
          compile_output := some "line 9" })).editor = readyState.editor :=
  (handleRun_highlight_attempts readyState
      { stdout := some "ok", stderr := some "error at line 7",
        compile_output := some "line 9" }).1 "ok" rfl (by decide)

/-- C5, the code at two successive runs on a mounted editor: the first run
fails at line 1 and leaves one decoration; when the second run starts,
`deltaDecorations([], [])` removes nothing and the decoration of the first
run is still held; a second run failing at line 2 ends with both
decorations held, and a second run that succeeds ends with the decoration
of the first run still held. -/
theorem handleRun_decorations_accumulate :
    heldDecorations (handleRun readyState (Transport.response
        { stdout := none, stderr := some "error at line 1", compile_output := none })) =
      [errorDecoration (JSNumber.finite 1)] ∧
    heldDecorations (handleRunStart (handleRun readyState (Transport.response
        { stdout := none, stderr := some "error at line 1", compile_output := none }))) =
      [errorDecoration (JSNumber.finite 1)] ∧
    heldDecorations (handleRun (handleRun readyState (Transport.response
        { stdout := none, stderr := some "error at line 1", compile_output := none }))
        (Transport.response
        { stdout := none, stderr := some "error at line 2", compile_output := none })) =
      [errorDecoration (JSNumber.finite 1), errorDecoration (JSNumber.finite 2)] ∧
    heldDecorations (handleRun (handleRun readyState (Transport.response
        { stdout := none, stderr := some "error at line 1", compile_output := none }))
        (Transport.response
        { stdout := some "done", stderr := none, compile_output := none })) =
      [errorDecoration (JSNumber.finite 1)] := by
  decide

end OneCompiler
